import Mathlib

/-!
# Verification of the eslint-parallel core against its specification

Shallow embedding of the supervisor/pool/worker code:

* `mergeReports`, the supervisor dispatch loop and the completion countdown
  come from `src/lib/parallel/parallel-engine.js` and the second engine
  variant `src/unnamed/part_000`;
* the worker pool (`WorkerPool.run`, `onDone`, `sortWorkers`, `spawnWorker`,
  `getReports`, `spinDown`) comes from `src/unnamed/part_001` and the pool
  variant embedded in `src/lib/parallel/parallel-engine-worker.js`
  (both variants agree on everything the claims touch; the capacity source
  differs and is modelled as the `maxSize` field);
* the worker runtime (`executeOnFiles` and the `files` message handler)
  comes from `src/lib/parallel/parallel-engine-worker.js`;
* `lintFilesValidate` / `lintText` come from
  `src/lib/parallel/parallel-eslint.js`.

JavaScript numbers that only ever count upwards are modelled as `Nat`;
counters that are decremented are modelled as `Int`.  A JavaScript object
property that may be `undefined` (or `NaN` after arithmetic on `undefined`)
is modelled as an `Option`, with `none` for `undefined`/`NaN`.
-/

set_option maxRecDepth 100000

/-- One per-file lint result.  The core never inspects the inside of a
result, so a file path plus an opaque message count is enough. -/
structure LintResult where
  filePath : String
  messageCount : Nat := 0
  deriving Repr, DecidableEq

/-- A lint report: accumulated results plus derived counts, as produced by
one worker and consumed by `mergeReports`.  Counts are JS numbers that are
only added, modelled as `Int`. -/
structure LintReport where
  errorCount : Int := 0
  warningCount : Int := 0
  fatalErrorCount : Int := 0
  fixableErrorCount : Int := 0
  fixableWarningCount : Int := 0
  results : List LintResult := []
  usedDeprecatedRules : List String := []
  deriving Repr, DecidableEq

/-- One element of the external file enumerator's
`fileEnumerator.iterateFiles(patterns)` sequence: a
`(config, filePath, ignored)` tuple.  The config is opaque to the core and
modelled as a number. -/
structure EnumEntry where
  config : Nat := 0
  filePath : String
  ignored : Bool := false
  deriving Repr, DecidableEq

/-- External collaborator `createIgnoreResult(filePath, cwd)` from the host
cli-engine: builds the placeholder result for an ignored file.  Its inside
is opaque to the core; only the fact that one result per ignored file is
recorded matters here. -/
def createIgnoreResult (filePath : String) : LintResult :=
  { filePath := filePath }

/-- Constant `BATCH_SIZE = 50` (`parallel-engine.js` line 10, `part_000` line 14). -/
def BATCH_SIZE : Nat := 50

/-- Function `mergeReports` from `parallel-engine.js` lines 24-42.

The five numeric counts are accumulated into `finalReport = reports[0]`
with `+=`.  Lines 37-38 call `finalReport.results.concat(report.results)`
and `finalReport.usedDeprecatedRules.concat(...)`: JavaScript
`Array.prototype.concat` returns a *new* array and leaves the receiver
unchanged, and the returned array is discarded, so `results` and
`usedDeprecatedRules` of the merged report stay exactly `reports[0]`'s. -/
def mergeReports : List LintReport → Except String LintReport
  | [] => Except.error "No reports were provided to merge"
  | finalReport :: rest =>
    Except.ok <| rest.foldl
      (fun acc report =>
        { acc with
          errorCount := acc.errorCount + report.errorCount
          warningCount := acc.warningCount + report.warningCount
          fatalErrorCount := acc.fatalErrorCount + report.fatalErrorCount
          fixableErrorCount := acc.fixableErrorCount + report.fixableErrorCount
          fixableWarningCount := acc.fixableWarningCount + report.fixableWarningCount })
      finalReport

/-- The mutable locals of `ParallelEngine.run`'s enumeration loop
(`parallel-engine.js` lines 68-102, `part_000` lines 52-86): the local
`results` array of ignore-results, the current `fileBatch`, the `jobCount`
counter, and — for the embedding — the list of batches passed to
`this.pool.run`, in dispatch order. -/
structure RunLoopState where
  results : List LintResult := []
  fileBatch : List String := []
  jobCount : Nat := 0
  jobs : List (List String) := []
  deriving Repr, DecidableEq

/-- One iteration of the `for ... of fileEnumerator.iterateFiles(patterns)`
loop, shared verbatim by both engine variants: an ignored file is recorded
via `createIgnoreResult` and skipped; otherwise the file is pushed onto
`fileBatch`, and once `fileBatch.length >= BATCH_SIZE` the batch is
dispatched (`jobCount += 1; this.pool.run(fileBatch); fileBatch = []`).
(The `lastConfigArrays` bookkeeping does not affect any claim and is not
modelled.) -/
def runLoopStep (s : RunLoopState) (e : EnumEntry) : RunLoopState :=
  if e.ignored then
    { s with results := s.results ++ [createIgnoreResult e.filePath] }
  else
    let fileBatch := s.fileBatch ++ [e.filePath]
    if BATCH_SIZE ≤ fileBatch.length then
      { s with
        fileBatch := []
        jobCount := s.jobCount + 1
        jobs := s.jobs ++ [fileBatch] }
    else
      { s with fileBatch := fileBatch }

/-- The whole enumeration loop, starting from empty locals. -/
def engineDispatchLoop (entries : List EnumEntry) : RunLoopState :=
  entries.foldl runLoopStep {}

/-- Batches dispatched by `parallel-engine.js`'s `ParallelEngine.run`
(lines 80-102): after the loop ends, nothing further is dispatched — the
code proceeds straight to the completion wait, so a non-empty trailing
`fileBatch` is silently dropped. -/
def parallelEngineRunJobs (entries : List EnumEntry) : List (List String) :=
  (engineDispatchLoop entries).jobs

/-- Final `jobCount` of `parallel-engine.js`'s run. -/
def parallelEngineJobCount (entries : List EnumEntry) : Nat :=
  (engineDispatchLoop entries).jobCount

/-- Batches dispatched by `part_000`'s `ParallelEngine.run` (lines 64-89):
after the loop, lines 88-89 run `jobCount += 1; this.pool.run(fileBatch);`
unconditionally, so the trailing batch is dispatched even when it is
empty. -/
def part000RunJobs (entries : List EnumEntry) : List (List String) :=
  let s := engineDispatchLoop entries
  s.jobs ++ [s.fileBatch]

/-- Final `jobCount` of `part_000`'s run. -/
def part000JobCount (entries : List EnumEntry) : Nat :=
  (engineDispatchLoop entries).jobCount + 1

/-- The completion-wait callback registered through
`this.pool.onTaskCompleted` (`parallel-engine.js` lines 105-112, `part_000`
lines 94-101): state is `(jobCount, resolved)`; each invocation runs
`jobCount -= 1; if (jobCount === 0) resolve();`. -/
def onTaskCompletedCallback (s : Int × Bool) : Int × Bool :=
  let jobCount := s.1 - 1
  (jobCount, s.2 || (jobCount == 0))

/-- Barrier state after `k` completion acknowledgments have invoked the
callback, starting from `jobCount = J` and an unresolved promise.  The pool
fires the callback exactly once per `done` message, and each dispatched
`files` message produces exactly one `done`, so over a whole run `k` ranges
over `0..J`. -/
def barrierAfter (J k : Nat) : Int × Bool :=
  onTaskCompletedCallback^[k] ((J : Int), false)

/-- Builds `n` non-ignored enumerator entries with distinct paths. -/
def mkFiles (n : Nat) : List EnumEntry :=
  (List.range n).map fun i => { filePath := toString i, ignored := false }

/-- Builds `n` ignored enumerator entries with distinct paths. -/
def mkIgnored (n : Nat) : List EnumEntry :=
  (List.range n).map fun i => { filePath := toString i, ignored := true }

/-- Supervisor-to-worker messages (`init`, `files`, `report`).  The `init`
payload (the shared options bag, and in the second pool variant a
`workerId`) is opaque to every claim and not carried. -/
inductive SupToWorker where
  | initMsg
  | filesMsg (files : List String) (id : Nat)
  | reportMsg
  deriving Repr, DecidableEq

/-- One element of the pool's `this.workers` array: the object
`{ worker, active }` pushed by `spawnWorker` (`part_001` line 114, second
variant line 260, which also stores a `workerId`; we give the first
variant's workers the same spawn-order ids so both variants share one
embedding).

`active` is the handle's job counter.  The source only ever *increments*
it — the decrement in the `done` handler is applied to a different object
(see `WorkerPool.onDone`) — so `Nat` is a faithful type for it.

`procActive` models the `active` property of the forked *process object*
(`cluster.fork` / `child_process.fork` return value) that the `done`
handler actually mutates: it starts out `undefined`, and JavaScript
`undefined--` stores `NaN` (and `NaN - 1` is `NaN`), modelled as an
absorbing `none`.

`sentMessages` records every message `send`-delivered to this worker, in
send order. -/
structure WorkerHandle where
  workerId : Nat
  active : Nat := 0
  procActive : Option Int := none
  sentMessages : List SupToWorker := []
  deriving Repr, DecidableEq

/-- Effect of `worker.active--` on the process object (`part_001` line 118, second
variant line 264): the property is `undefined` at first, so the decrement
stores `NaN`; once `NaN`, it stays `NaN`. -/
def procActiveDecrement : Option Int → Option Int
  | none => none
  | some _ => none

/-- The ordering the pool sorts worker handles by:
`(a, b) => a.active - b.active`, i.e. ascending `active`. -/
def activeLe (a b : WorkerHandle) : Prop := a.active ≤ b.active

instance : DecidableRel activeLe := fun a b => Nat.decLe a.active b.active

instance : IsTotal WorkerHandle activeLe := ⟨fun a b => Nat.le_total a.active b.active⟩

instance : IsTrans WorkerHandle activeLe := ⟨fun _ _ _ => Nat.le_trans⟩

/-- Method `sortWorkers` (`part_001` lines 96-98, second variant lines 228-230):
`this.workers.sort((a, b) => a.active - b.active)`.  JavaScript
`Array.prototype.sort` is a stable sort; stable insertion sort by the same
key is extensionally the same function. -/
def sortWorkers (ws : List WorkerHandle) : List WorkerHandle :=
  List.insertionSort activeLe ws

/-- The pool's mutable fields (`part_001` lines 27-41, second variant lines
158-178).  The capacity is `this.options.concurrency` in the first variant
and `os.cpus().length - 1` in the second; both are a run-constant number,
modelled as the field `maxSize`. -/
structure WorkerPool where
  workers : List WorkerHandle := []
  workIdCounter : Nat := 0
  nextWorkerId : Nat := 1
  activeTasks : Int := 0
  maxSize : Nat
  deriving Repr, DecidableEq

/-- A fresh pool (the constructor). -/
def WorkerPool.mk0 (maxSize : Nat) : WorkerPool := { maxSize := maxSize }

/-- Method `spawnWorker` (`part_001` lines 111-125, second variant lines 254-271):
forks a process, *unshifts* `{ worker, active: 0 }` onto the front of
`this.workers`, registers the `done` handler (embodied by
`WorkerPool.onDone` below), and sends `init`. -/
def WorkerPool.spawnWorker (p : WorkerPool) : WorkerPool :=
  let workerId := p.nextWorkerId
  { p with
    workers := { workerId := workerId, sentMessages := [.initMsg] } :: p.workers
    nextWorkerId := workerId + 1 }

/-- The pool state `run` picks its target from: `spawnWorker` has run iff
`this.workers.length < maxSize` (`part_001` lines 57-59). -/
def WorkerPool.afterSpawnCheck (p : WorkerPool) : WorkerPool :=
  if p.workers.length < p.maxSize then p.spawnWorker else p

/-- Method `WorkerPool.run(files)` (`part_001` lines 56-70, second variant lines
185-200), additionally returning the `workerId` of the dispatch target:
spawn if below capacity, `this.activeTasks += 1`, pick
`target = this.workers[0]`, allocate `id = this.workIdCounter++`,
`target.active++`, `this.sortWorkers()`, then
`target.worker.send({ type: "files", files, id })`.  When the workers
array is empty (capacity 0), `this.workers[0]` is `undefined` and
`target.active++` throws a TypeError: modelled as `none`. -/
def WorkerPool.runWithTarget (p : WorkerPool) (files : List String) :
    Option (WorkerPool × Nat) :=
  let p1 := p.afterSpawnCheck
  match p1.workers with
  | [] => none
  | target :: rest =>
    let id := p1.workIdCounter
    let target2 :=
      { target with
        active := target.active + 1
        sentMessages := target.sentMessages ++ [.filesMsg files id] }
    some ({ p1 with
            activeTasks := p1.activeTasks + 1
            workers := sortWorkers (target2 :: rest)
            workIdCounter := id + 1 },
          target.workerId)

/-- Method `WorkerPool.run(files)` without the target annotation. -/
def WorkerPool.run (p : WorkerPool) (files : List String) : Option WorkerPool :=
  (p.runWithTarget files).map Prod.fst

/-- The `done`-message handler registered in `spawnWorker` (`part_001`
lines 115-122, second variant lines 261-268), fired when the worker with
id `wid` sends `done`:
`this.activeTasks -= 1; worker.active--; this.sortWorkers();
this._sendTaskCompleted();`.

The handler's `worker` is the local `const worker = cluster.fork(...)` —
the *process object* — not the handle `{ worker, active }` stored in
`this.workers`, so `worker.active--` decrements the process object's
(undefined) `active` property and the handle's `active` is left
unchanged. -/
def WorkerPool.onDone (p : WorkerPool) (wid : Nat) : WorkerPool :=
  { p with
    activeTasks := p.activeTasks - 1
    workers := sortWorkers (p.workers.map fun w =>
      if w.workerId = wid then { w with procActive := procActiveDecrement w.procActive } else w) }

/-- Method `spinDown` (second variant lines 246-252): kills every worker process
and clears the workers array. -/
def WorkerPool.spinDown (p : WorkerPool) : WorkerPool :=
  { p with workers := [] }

/-- The object the worker runtime sends back for a `report` message
(`parallel-engine-worker.js` line 122):
`process.send({ type: "reportback", results: worker.getResults() })`.
The object literal carries a `results` property and *no* `report`
property, so reading `message.report` on it yields `undefined` (`none`). -/
structure ReportbackMsg where
  type : String
  resultsField : Option (List LintResult)
  reportField : Option (List LintResult)
  deriving Repr, DecidableEq

/-- The worker's reply to `report`, carrying its accumulated results. -/
def workerReportback (accumulated : List LintResult) : ReportbackMsg :=
  { type := "reportback", resultsField := some accumulated, reportField := none }

/-- Callback `handleReport(message)` inside `getReports` (`part_001` lines 80-87,
second variant lines 210-217): a non-`reportback` message is ignored
(promise still pending, `none`); a `reportback` resolves the promise with
`message.report`. -/
def handleReport (message : ReportbackMsg) : Option (Option (List LintResult)) :=
  if message.type ≠ "reportback" then none
  else some message.reportField

/-- Method `getReports()` (`part_001` lines 72-94; `getResults()` of the second
variant collects the same per-worker values before flat-mapping them):
for every element of `this.workers`, in the array's current order, send
`report` and await the resolution `handleReport` produces for the
worker's `reportback` reply; `Promise.all` resolves — with the per-worker
values in that same order — once every promise has resolved.  `acc` maps a
`workerId` to the results that worker has accumulated. -/
def WorkerPool.getReports (p : WorkerPool) (acc : Nat → List LintResult) :
    Option (List (Option (List LintResult))) :=
  p.workers.mapM fun w => handleReport (workerReportback (acc w.workerId))

/-- Call `fs.readFileSync(filePath, "utf8")` (`parallel-engine-worker.js` line
74) against a modelled file system `fsMap`; a missing file throws. -/
def readFileSync (fsMap : String → Option String) (filePath : String) :
    Except String String :=
  match fsMap filePath with
  | some text => Except.ok text
  | none => Except.error ("ENOENT: no such file " ++ filePath)

/-- Method `ParallelEngineWorker.executeOnFiles(files, jobId)`
(`parallel-engine-worker.js` lines 41-90): iterate the enumerator over the
given paths (the external enumerator yields one entry per path here),
`readFileSync` each file and run the external `verifyText` routine on it
(per the collaborator contract, `verify` is total: a recoverable per-file
lint failure comes back as an error-severity result, not an exception),
pushing each result.  There is no try/catch anywhere in the loop, so a
thrown read error propagates out of the whole call (`Except.error`), and
the local `results` gathered so far are discarded with it.  (The
`lastConfigArrays` bookkeeping does not affect results and is not
modelled.) -/
def executeOnFilesGo (fsMap : String → Option String)
    (verify : String → String → LintResult) :
    List String → List LintResult → Except String (List LintResult)
  | [], results => Except.ok results
  | filePath :: rest, results =>
    match readFileSync fsMap filePath with
    | Except.error e => Except.error e
    | Except.ok text =>
      executeOnFilesGo fsMap verify rest (results ++ [verify filePath text])

/-- Method `ParallelEngineWorker.executeOnFiles` run over the whole batch,
starting from the empty local `results` array. -/
def executeOnFiles (fsMap : String → Option String)
    (verify : String → String → LintResult) (files : List String) :
    Except String (List LintResult) :=
  executeOnFilesGo fsMap verify files []

/-- The worker runtime's state after serving one `files` message
(`parallel-engine-worker.js` lines 115-119): `accumulated` is
`this.results`, `doneSent` records whether `process.send({type:"done"})`
ran. -/
structure WorkerExecOutcome where
  accumulated : List LintResult
  doneSent : Bool
  deriving Repr, DecidableEq

/-- The `files` message case of the worker's `process.on("message")`
handler: `worker.executeOnFiles(message.files, message.id)` followed by
`process.send({ type: "done" })`.  On success the batch results are
appended to `this.results` (line 89) and `done` is sent; if
`executeOnFiles` throws, the async handler rejects — nothing is appended
and `done` is never sent. -/
def handleFilesMessage (fsMap : String → Option String)
    (verify : String → String → LintResult) (thisResults : List LintResult)
    (files : List String) : WorkerExecOutcome :=
  match executeOnFiles fsMap verify files with
  | Except.ok results => { accumulated := thisResults ++ results, doneSent := true }
  | Except.error _ => { accumulated := thisResults, doneSent := false }

/-- JavaScript `String.prototype.trim`: strip whitespace from both ends.
(`String.trim` of the Lean library is defined through `Substring`
primitives that the kernel cannot evaluate, so the same function is
written out on the character list.) -/
def jsTrim (s : String) : String :=
  ⟨((s.data.dropWhile Char.isWhitespace).reverse.dropWhile Char.isWhitespace).reverse⟩

/-- The validation error text of `ParallelESLint.lintFiles`
(`parallel-eslint.js` line 35; quotation marks around the word `patterns`
elided). -/
def patternsErrorMsg : String :=
  "patterns must be a non-empty string or an array of non-empty strings"

/-- The validation in `ParallelESLint.lintFiles` (`parallel-eslint.js`
lines 31-39, identical in both in-repo variants), for the array form of
the argument:
`if (patternsArray.some(pattern => pattern.trim() === "")) throw ...`.
Note `[].some(...)` is `false`, so an empty array passes. -/
def lintFilesValidate (patterns : List String) : Except String Unit :=
  if patterns.any (fun pattern => jsTrim pattern == "") then
    Except.error patternsErrorMsg
  else
    Except.ok ()

/-- Method `ParallelESLint.lintFiles` up to job dispatch: validation happens
before `this.parallelEngine.run(patterns)` is invoked, and `run` begins by
enumerating `patterns` (modelled by `enumerate`) and dispatching batches
per `parallelEngineRunJobs`. -/
def lintFilesJobs (patterns : List String)
    (enumerate : List String → List EnumEntry) :
    Except String (List (List String)) :=
  match lintFilesValidate patterns with
  | Except.error e => Except.error e
  | Except.ok _ => Except.ok (parallelEngineRunJobs (enumerate patterns))

/-- Method `ParallelESLint.lintText` (`parallel-eslint.js` lines 45-47): always
throws, before any engine work. -/
def lintTextOutcome : Except String Unit :=
  Except.error "linting text from stdin is not supported in parallel mode"

/-- The value `parallel-engine.js`'s `run` resolves with (lines 116-119):
`const reports = await this.pool.getReports(); const report =
mergeReports(reports); return report;`.  The local `results` array of
ignore-results (declared line 68, filled line 82) is never read after the
loop, so it does not enter the returned report. -/
def parallelEngineFinalReport (ignoreResults : List LintResult)
    (workerReports : List LintReport) : Except String LintReport :=
  mergeReports workerReports

/-- The workers array is sorted by ascending `active` — the order
`sortWorkers` (re)establishes. -/
def SortedByActive (ws : List WorkerHandle) : Prop :=
  List.Sorted activeLe ws

/-- Load balance: no worker's `active` exceeds any other worker's `active`
by more than one (equivalently, none exceeds the minimum by more than
one). -/
def BalancedLoad (ws : List WorkerHandle) : Prop :=
  ∀ w ∈ ws, ∀ w2 ∈ ws, w.active ≤ w2.active + 1

/-- Pool states reachable through the pool's own operations: construction,
a successful dispatch, a `done` message from some worker, shutdown.  (No
other component mutates the worker set.) -/
inductive PoolReachable : WorkerPool → Prop
  | mk0 (maxSize : Nat) : PoolReachable (WorkerPool.mk0 maxSize)
  | run {p q : WorkerPool} {files : List String} {tid : Nat} :
      PoolReachable p → p.runWithTarget files = some (q, tid) → PoolReachable q
  | done {p : WorkerPool} (wid : Nat) :
      PoolReachable p → PoolReachable (p.onDone wid)
  | spinDown {p : WorkerPool} : PoolReachable p → PoolReachable p.spinDown

/-- Invariant carried through every pool transition: the workers array is
sorted by ascending `active`, is balanced, and — while the pool is still
below capacity — every worker has `active = 1` (below capacity each
dispatch spawns a fresh worker, unshifts it to the front, and sends the
job to it; and `done` never lowers a handle's `active`, see
`WorkerPool.onDone`). -/
def PoolInv (p : WorkerPool) : Prop :=
  SortedByActive p.workers ∧ BalancedLoad p.workers ∧
    (p.workers.length < p.maxSize → ∀ w ∈ p.workers, w.active = 1)

/-- One dispatch went to the worker at the head of the (spawn-adjusted)
workers array, and that worker's `active` was minimal over the array at
pick time. -/
def DispatchedToLeastLoaded (p : WorkerPool) (tid : Nat) : Prop :=
  ∃ target rest, p.afterSpawnCheck.workers = target :: rest ∧
    target.workerId = tid ∧
    ∀ w ∈ p.afterSpawnCheck.workers, target.active ≤ w.active

/-- After any `done` message the pool's ordering has been recomputed
(sorted again by ascending `active`). -/
def ReSortedAfterDone (q : WorkerPool) : Prop :=
  ∀ wid, SortedByActive ((q.onDone wid).workers)

/-- A capacity-1 pool after its first dispatch (used as concrete input). -/
def poolOneDispatch : Option WorkerPool := (WorkerPool.mk0 1).run ["a.js"]

/-- The state `poolOneDispatch` computes to, written out. -/
def poolOneRun : WorkerPool :=
  { workers := [{ workerId := 1, active := 1, procActive := none,
                  sentMessages := [SupToWorker.initMsg, SupToWorker.filesMsg ["a.js"] 0] }],
    workIdCounter := 1, nextWorkerId := 2, activeTasks := 1, maxSize := 1 }

/-- A capacity-2 pool after two dispatches: both workers tied at
`active = 1`, with the later-spawned worker 2 at the front. -/
def poolTieTrace : Option WorkerPool :=
  ((WorkerPool.mk0 2).run ["a.js"]).bind fun p => p.run ["b.js"]

/-- The accumulated results of the single worker in `poolOneDispatch`. -/
def accOne : Nat → List LintResult := fun _ => [{ filePath := "a.js" }]

/-- Concrete worker report (five counts, one result, one deprecated
rule). -/
def reportA : LintReport :=
  { errorCount := 1, warningCount := 2, fatalErrorCount := 0,
    fixableErrorCount := 1, fixableWarningCount := 0,
    results := [{ filePath := "a.js" }], usedDeprecatedRules := ["ruleA"] }

/-- A second concrete worker report. -/
def reportB : LintReport :=
  { errorCount := 3, warningCount := 1, fatalErrorCount := 1,
    fixableErrorCount := 0, fixableWarningCount := 2,
    results := [{ filePath := "b.js" }], usedDeprecatedRules := ["ruleB"] }

/-- A modelled file system on which only `b.js` exists. -/
def fsOnlyB : String → Option String :=
  fun f => if f == "b.js" then some "var x;" else none

/-- A modelled file system on which every file exists. -/
def fsAll : String → Option String := fun _ => some "var y;"

/-- A stub for the external verify routine: one result per file, total (a
recoverable lint failure is a result, not an exception). -/
def verifyStub : String → String → LintResult :=
  fun filePath _ => { filePath := filePath }

/-- The enumeration loop keeps `jobCount` equal to the number of batches
passed to `pool.run` (one `jobCount += 1` per `this.pool.run(fileBatch)`). -/
theorem runLoopStep_jobCount (s : RunLoopState) (e : EnumEntry)
    (h : s.jobCount = s.jobs.length) :
    (runLoopStep s e).jobCount = (runLoopStep s e).jobs.length := by
  simp only [runLoopStep]
  split
  · simpa using h
  · split
    · simp [h]
    · simpa using h

/-- Invariant `jobCount = jobs.length` over the whole loop. -/
theorem dispatchLoop_jobCount (entries : List EnumEntry) :
    ∀ s : RunLoopState, s.jobCount = s.jobs.length →
      (entries.foldl runLoopStep s).jobCount =
        (entries.foldl runLoopStep s).jobs.length := by
  induction entries with
  | nil => intro s h; simpa using h
  | cons e es ih => intro s h; exact ih _ (runLoopStep_jobCount s e h)

/-- Unfolding one step of the barrier iteration. -/
theorem barrierAfter_succ (J k : Nat) :
    barrierAfter J (k + 1) = onTaskCompletedCallback (barrierAfter J k) :=
  Function.iterate_succ_apply' onTaskCompletedCallback k ((J : Int), false)

/-- Closed form of the countdown: after `k` acknowledgments the counter is
`J - k`. -/
theorem barrierAfter_fst (J k : Nat) : (barrierAfter J k).1 = (J : Int) - k := by
  induction k with
  | zero => simp [barrierAfter]
  | succ k ih =>
    rw [barrierAfter_succ]
    simp only [onTaskCompletedCallback, ih]
    push_cast
    ring

/-- Closed form of the resolution flag: `resolve` has fired within the
first `k` acknowledgments iff at least one job was dispatched and all `J`
of them have acknowledged. -/
theorem barrierAfter_snd (J k : Nat) :
    ((barrierAfter J k).2 = true) ↔ (1 ≤ J ∧ J ≤ k) := by
  induction k with
  | zero =>
    simp only [barrierAfter, Function.iterate_zero, id_eq, Bool.false_eq_true,
      false_iff]
    omega
  | succ k ih =>
    rw [barrierAfter_succ]
    simp only [onTaskCompletedCallback, Bool.or_eq_true, beq_iff_eq, ih,
      barrierAfter_fst]
    omega

/-- C1.  The claim — each non-ignored enumerated file lands in exactly one
dispatched job, with full batches of `BATCH_SIZE` dispatched as they fill,
a non-empty remainder dispatched at the end of enumeration, and
`ceil(n / 50)` jobs in total (zero when everything is ignored) — fails on
both engine variants, evaluated here at the failing inputs:
`parallel-engine.js` never dispatches the trailing batch, so 20 non-ignored
files produce 0 jobs (the claim demands 1) and all 20 files are left
undispatched in `fileBatch`; `part_000` dispatches the trailing batch
unconditionally, so 50 non-ignored files produce 2 jobs, the second one
empty (the claim demands 1), and an all-ignored enumeration still produces
1 (empty) job (the claim demands 0). -/
theorem C1_batching_divergence :
    ((20 + BATCH_SIZE - 1) / BATCH_SIZE = 1 ∧
      (parallelEngineRunJobs (mkFiles 20)).length = 0 ∧
      (engineDispatchLoop (mkFiles 20)).fileBatch.length = 20) ∧
    ((50 + BATCH_SIZE - 1) / BATCH_SIZE = 1 ∧
      (part000RunJobs (mkFiles 50)).length = 2 ∧
      (part000RunJobs (mkFiles 50)).getLast? = some []) ∧
    ((part000RunJobs (mkIgnored 3)).length = 1 ∧
      part000RunJobs (mkIgnored 3) = [[]]) := by
  decide

/-- C2, amended.  The countdown barrier of `ParallelEngine.run`: the final
`jobCount` entering the wait equals the number of dispatched jobs (for
both engine variants), each completion acknowledgment decreases the
counter by exactly one, the counter never goes negative over the `J`
acknowledgments a run can receive, and the promise gating report
collection and merge resolves iff at least one job was dispatched and all
of them have acknowledged — so the merge never starts before every
dispatched job has acknowledged, but with zero dispatched jobs the counter
sits at zero and the run never proceeds at all. -/
theorem C2_countdown_barrier (entries : List EnumEntry) (J k : Nat)
    (hk : k ≤ J) :
    parallelEngineJobCount entries = (parallelEngineRunJobs entries).length ∧
    part000JobCount entries = (part000RunJobs entries).length ∧
    (barrierAfter J (k + 1)).1 = (barrierAfter J k).1 - 1 ∧
    (0 : Int) ≤ (barrierAfter J k).1 ∧
    ((barrierAfter J k).2 = true ↔ 1 ≤ J ∧ k = J) := by
  refine ⟨?_, ?_, ?_, ?_, ?_⟩
  · exact dispatchLoop_jobCount entries {} rfl
  · have h := dispatchLoop_jobCount entries {} rfl
    simp only [part000JobCount, part000RunJobs, engineDispatchLoop,
      List.length_append, List.length_singleton]
    simp only [engineDispatchLoop] at h
    omega
  · rw [barrierAfter_succ]
    rfl
  · rw [barrierAfter_fst]
    omega
  · rw [barrierAfter_snd]
    omega

/-- Witness for `C2_countdown_barrier` at `entries = []`, `J = 2`,
`k = 2`. -/
theorem C2_countdown_barrier_witness :
    parallelEngineJobCount [] = (parallelEngineRunJobs []).length ∧
    part000JobCount [] = (part000RunJobs []).length ∧
    (barrierAfter 2 3).1 = (barrierAfter 2 2).1 - 1 ∧
    (0 : Int) ≤ (barrierAfter 2 2).1 ∧
    ((barrierAfter 2 2).2 = true ↔ 1 ≤ 2 ∧ 2 = 2) :=
  C2_countdown_barrier [] 2 2 (by decide)

/-- C2, counterexample to the claim as stated.  A `parallel-engine.js` run
over an all-ignored enumeration dispatches zero jobs, so zero `done`
acknowledgments will ever arrive; the counter is already at zero, yet the
resolve flag is still `false` after all (zero) acknowledgments — the run
never proceeds to report collection and merge even though the count has
reached zero, refuting the claimed "if and only if". -/
theorem C2_zero_jobs_never_resolves :
    parallelEngineJobCount (mkIgnored 3) = 0 ∧
    (barrierAfter 0 0).1 = 0 ∧
    (barrierAfter 0 0).2 = false := by
  decide

/-- C10.  `mergeReports` of an empty report list is exactly the error
`"No reports were provided to merge"`; and a pool holding no workers
resolves report collection with an empty list, so such a run's merge step
cannot produce a report. -/
theorem C10_merge_empty_throws :
    mergeReports [] = Except.error "No reports were provided to merge" ∧
    (WorkerPool.mk0 3).getReports (fun _ => []) = some [] :=
  ⟨rfl, rfl⟩

/-- C3.  Evaluation at the failing input: a capacity-1 pool dispatches one
job (worker 1's handle goes to `active = 1`, as claimed), but when worker
1's `done` message arrives, the handle's `active` stays `1` instead of
returning to `0` — the handler's `worker.active--` decrements the
(undefined) `active` property of the forked process object (leaving `NaN`
there, modelled `none`), not the pool handle — even though the pool-level
`activeTasks` does drop back to `0`. -/
theorem C3_done_does_not_decrement :
    (poolOneDispatch.map fun q => q.workers.map WorkerHandle.active) = some [1] ∧
    (poolOneDispatch.map fun q => (q.onDone 1).workers.map WorkerHandle.active) =
      some [1] ∧
    (poolOneDispatch.map fun q =>
      (q.onDone 1).workers.map WorkerHandle.procActive) = some [none] ∧
    (poolOneDispatch.map fun q => (q.onDone 1).activeTasks) = some 0 := by
  decide

/-- C4.  Evaluation at the failing input: a single-worker pool whose
worker has accumulated one result.  `getReports` does broadcast `report`,
resolve once every worker replied, and keep the pool's worker order — but
every collected element is `none` (JavaScript `undefined`), because the
promise resolves with `message.report` while the worker runtime sends its
accumulated results under the `results` key of the `reportback` message. -/
theorem C4_reportback_field_mismatch :
    (poolOneDispatch.map fun q => q.getReports accOne) = some (some [none]) ∧
    workerReportback (accOne 1) =
      { type := "reportback",
        resultsField := some [{ filePath := "a.js" }],
        reportField := none } := by
  decide

/-- C5.  Evaluation at the failing input, two worker reports: every
numeric statistic of the merged report is the sum over the inputs (as
claimed), but the merged result list is exactly `reports[0]`'s —
`finalReport.results.concat(report.results)` discards the concatenation it
builds, so `reportB`'s results (and `usedDeprecatedRules`) are dropped —
and the supervisor's locally recorded ignore-results never enter the
returned report at all (`parallelEngineFinalReport` ignores them). -/
theorem C5_merge_drops_results :
    mergeReports [reportA, reportB] = Except.ok
      { errorCount := 4, warningCount := 3, fatalErrorCount := 1,
        fixableErrorCount := 1, fixableWarningCount := 2,
        results := [{ filePath := "a.js" }],
        usedDeprecatedRules := ["ruleA"] } ∧
    parallelEngineFinalReport [createIgnoreResult "skipped.js"]
        [reportA, reportB] =
      mergeReports [reportA, reportB] :=
  ⟨rfl, rfl⟩

/-- When every file of the batch is readable, the worker's loop reads and
verifies each file in order, pushing one result per file. -/
theorem executeOnFiles_all_readable (fsMap : String → Option String)
    (verify : String → String → LintResult) :
    ∀ (files : List String) (acc : List LintResult),
      (∀ f ∈ files, (fsMap f).isSome = true) →
      executeOnFilesGo fsMap verify files acc =
        Except.ok (acc ++ files.map fun f => verify f ((fsMap f).getD "")) := by
  intro files
  induction files with
  | nil => intro acc _; simp [executeOnFilesGo]
  | cons f fs ih =>
    intro acc hall
    have hf : (fsMap f).isSome = true := hall f (List.mem_cons_self f fs)
    obtain ⟨t, ht⟩ := Option.isSome_iff_exists.mp hf
    have hrest : ∀ g ∈ fs, (fsMap g).isSome = true :=
      fun g hg => hall g (List.mem_cons_of_mem f hg)
    simp only [executeOnFilesGo, readFileSync, ht, ih _ hrest, List.map_cons,
      Option.getD_some, List.append_assoc, List.singleton_append]

/-- When some file of the batch is unreadable, the worker's loop throws:
the whole call returns an error. -/
theorem executeOnFiles_read_failure (fsMap : String → Option String)
    (verify : String → String → LintResult) :
    ∀ (files : List String) (acc : List LintResult),
      (∃ f ∈ files, fsMap f = none) →
      ∃ e, executeOnFilesGo fsMap verify files acc = Except.error e := by
  intro files
  induction files with
  | nil => intro acc h; simp at h
  | cons f fs ih =>
    intro acc h
    cases hf : fsMap f with
    | none =>
      refine ⟨"ENOENT: no such file " ++ f, ?_⟩
      simp [executeOnFilesGo, readFileSync, hf]
    | some t =>
      obtain ⟨g, hg, hgnone⟩ := h
      rcases List.mem_cons.mp hg with rfl | hgfs
      · rw [hf] at hgnone; exact absurd hgnone (by simp)
      · obtain ⟨e, he⟩ := ih (acc ++ [verify f t]) ⟨g, hgfs, hgnone⟩
        refine ⟨e, ?_⟩
        simp only [executeOnFilesGo, readFileSync, hf]
        exact he

/-- C8, amended.  Per-file failure semantics of the worker's `files`
handler: a verify failure does not abort the batch — the external verify
routine is total for recoverable failures, so its (possibly error-severity)
result is pushed like any other, every readable file yields exactly one
result entry, and `done` is sent after the whole batch.  A *file-read*
failure, however, aborts the whole batch: `fs.readFileSync` throws inside
the loop, no try/catch exists, so no result (not even for the files
already processed) is appended to the worker's accumulator and `done` is
never sent. -/
theorem C8_read_failure_semantics (fsMap : String → Option String)
    (verify : String → String → LintResult) (thisResults : List LintResult)
    (files : List String) :
    ((∀ f ∈ files, (fsMap f).isSome = true) →
      handleFilesMessage fsMap verify thisResults files =
        { accumulated :=
            thisResults ++ files.map fun f => verify f ((fsMap f).getD ""),
          doneSent := true }) ∧
    ((∃ f ∈ files, fsMap f = none) →
      handleFilesMessage fsMap verify thisResults files =
        { accumulated := thisResults, doneSent := false }) := by
  constructor
  · intro hall
    unfold handleFilesMessage executeOnFiles
    rw [executeOnFiles_all_readable fsMap verify files [] hall]
    simp
  · intro hsome
    unfold handleFilesMessage executeOnFiles
    obtain ⟨e, he⟩ := executeOnFiles_read_failure fsMap verify files [] hsome
    rw [he]

/-- Witness for `C8_read_failure_semantics`: on `fsAll` a one-file batch
completes and acknowledges; on `fsOnlyB` a batch containing the missing
`c.js` aborts with nothing recorded and no acknowledgment. -/
theorem C8_read_failure_semantics_witness :
    handleFilesMessage fsAll verifyStub [] ["a.js"] =
      { accumulated := [{ filePath := "a.js" }], doneSent := true } ∧
    handleFilesMessage fsOnlyB verifyStub [] ["c.js"] =
      { accumulated := [], doneSent := false } :=
  ⟨(C8_read_failure_semantics fsAll verifyStub [] ["a.js"]).1 (by decide),
   (C8_read_failure_semantics fsOnlyB verifyStub [] ["c.js"]).2
     ⟨"c.js", by decide, rfl⟩⟩

/-- C8, counterexample to the claim as stated.  Batch `[a.js, b.js]` on a
file system where `a.js` is unreadable but `b.js` exists: the claim says
the failure is recorded as an error result for `a.js`, processing
continues with `b.js`, and `done` is still sent; the code instead aborts
the whole batch — the accumulator receives no entry for either file and
`done` is never sent. -/
theorem C8_counterexample_read_aborts :
    handleFilesMessage fsOnlyB verifyStub [] ["a.js", "b.js"] =
      { accumulated := [], doneSent := false } :=
  rfl

/-- C9, amended.  A pattern list containing a blank (all-whitespace) entry
is rejected synchronously with the descriptive argument error, before any
enumeration or dispatch; `lintText` always fails with the descriptive
unsupported-mode error.  (An *empty* pattern list, by contrast, passes the
validation — see the counterexample.) -/
theorem C9_blank_pattern_rejected (patterns : List String)
    (enumerate : List String → List EnumEntry)
    (hblank : ∃ p ∈ patterns, jsTrim p = "") :
    lintFilesJobs patterns enumerate = Except.error patternsErrorMsg ∧
    lintTextOutcome =
      Except.error "linting text from stdin is not supported in parallel mode" := by
  refine ⟨?_, rfl⟩
  obtain ⟨p, hp, hptrim⟩ := hblank
  have hany : patterns.any (fun pattern => jsTrim pattern == "") = true :=
    List.any_eq_true.mpr ⟨p, hp, by simp [hptrim]⟩
  simp [lintFilesJobs, lintFilesValidate, hany]

/-- Witness for `C9_blank_pattern_rejected` at the all-whitespace pattern
list `[" "]`. -/
theorem C9_blank_pattern_rejected_witness :
    lintFilesJobs [" "] (fun _ => []) = Except.error patternsErrorMsg ∧
    lintTextOutcome =
      Except.error "linting text from stdin is not supported in parallel mode" :=
  C9_blank_pattern_rejected [" "] (fun _ => []) ⟨" ", by decide, by decide⟩

/-- C9, counterexample to the claim as stated.  An empty pattern list is
*not* rejected: `[].some(...)` is `false`, so validation passes and the
engine's run is entered (it then dispatches nothing and, per C2, never
resolves). -/
theorem C9_empty_patterns_not_rejected :
    lintFilesValidate [] = Except.ok () ∧
    lintFilesJobs [] (fun _ => []) = Except.ok [] :=
  ⟨rfl, rfl⟩

/-- Output of `sortWorkers` is sorted by ascending `active`. -/
theorem sortWorkers_sorted (ws : List WorkerHandle) :
    SortedByActive (sortWorkers ws) :=
  List.sorted_insertionSort activeLe ws

/-- Output of `sortWorkers` is a permutation of its input. -/
theorem sortWorkers_perm (ws : List WorkerHandle) :
    List.Perm (sortWorkers ws) ws :=
  List.perm_insertionSort activeLe ws

/-- Membership is unchanged by `sortWorkers`. -/
theorem mem_sortWorkers {w : WorkerHandle} {ws : List WorkerHandle} :
    w ∈ sortWorkers ws ↔ w ∈ ws :=
  (sortWorkers_perm ws).mem_iff

/-- Load balance only depends on membership, so it survives sorting. -/
theorem balancedLoad_of_perm {ws ws2 : List WorkerHandle}
    (hp : List.Perm ws2 ws) (h : BalancedLoad ws) : BalancedLoad ws2 :=
  fun w hw w2 hw2 => h w (hp.subset hw) w2 (hp.subset hw2)

/-- A worker set in which everyone has one active job is balanced. -/
theorem balancedLoad_all_one {ws : List WorkerHandle}
    (h : ∀ w ∈ ws, w.active = 1) : BalancedLoad ws := by
  intro w hw w2 hw2
  rw [h w hw, h w2 hw2]
  omega

/-- Incrementing the head of a sorted, balanced worker list (i.e. a
least-loaded worker) keeps the list balanced. -/
theorem balancedLoad_increment_head {target : WorkerHandle}
    {rest : List WorkerHandle} {target2 : WorkerHandle}
    (hsorted : SortedByActive (target :: rest))
    (hbal : BalancedLoad (target :: rest))
    (h2 : target2.active = target.active + 1) :
    BalancedLoad (target2 :: rest) := by
  have hmin : ∀ w ∈ rest, target.active ≤ w.active :=
    fun w hw => List.rel_of_sorted_cons hsorted w hw
  intro w hw w2 hw2
  rcases List.mem_cons.mp hw with rfl | hwr
  · rcases List.mem_cons.mp hw2 with rfl | hw2r
    · omega
    · have := hmin w2 hw2r
      omega
  · rcases List.mem_cons.mp hw2 with rfl | hw2r
    · have := hbal w (List.mem_cons_of_mem _ hwr) target (List.mem_cons_self _ _)
      omega
    · exact hbal w (List.mem_cons_of_mem _ hwr) w2 (List.mem_cons_of_mem _ hw2r)

/-- Below capacity, the spawn check unshifts a fresh zero-active worker. -/
theorem afterSpawnCheck_workers_lt {p : WorkerPool}
    (h : p.workers.length < p.maxSize) :
    p.afterSpawnCheck.workers =
      { workerId := p.nextWorkerId, active := 0, procActive := none,
        sentMessages := [SupToWorker.initMsg] } :: p.workers := by
  simp [WorkerPool.afterSpawnCheck, h, WorkerPool.spawnWorker]

/-- At capacity, the spawn check leaves the pool unchanged. -/
theorem afterSpawnCheck_not_lt {p : WorkerPool}
    (h : ¬ p.workers.length < p.maxSize) : p.afterSpawnCheck = p := by
  simp [WorkerPool.afterSpawnCheck, h]

/-- The spawn check never changes the capacity. -/
theorem afterSpawnCheck_maxSize (p : WorkerPool) :
    p.afterSpawnCheck.maxSize = p.maxSize := by
  by_cases h : p.workers.length < p.maxSize
  · simp [WorkerPool.afterSpawnCheck, h, WorkerPool.spawnWorker]
  · simp [WorkerPool.afterSpawnCheck, h]

/-- Characterization of a successful dispatch: the target is the head of
the spawn-adjusted workers array, the job id is the current counter, and
the new workers array is the re-sorted array with the head's `active`
incremented. -/
theorem runWithTarget_some {p q : WorkerPool} {files : List String}
    {tid : Nat} (hrun : p.runWithTarget files = some (q, tid)) :
    ∃ target rest, p.afterSpawnCheck.workers = target :: rest ∧
      tid = target.workerId ∧
      q.workers = sortWorkers
        ({ target with
            active := target.active + 1
            sentMessages := target.sentMessages
              ++ [SupToWorker.filesMsg files p.afterSpawnCheck.workIdCounter] }
          :: rest) ∧
      q.maxSize = p.afterSpawnCheck.maxSize := by
  simp only [WorkerPool.runWithTarget] at hrun
  cases hws : p.afterSpawnCheck.workers with
  | nil =>
    rw [hws] at hrun
    exact absurd hrun (by simp)
  | cons target rest =>
    rw [hws] at hrun
    refine ⟨target, rest, rfl, ?_, ?_, ?_⟩ <;>
      simp only [Option.some.injEq, Prod.mk.injEq] at hrun <;>
      obtain ⟨hq, ht⟩ := hrun <;> subst hq <;> simp [ht]

/-- A successful dispatch preserves the pool invariant. -/
theorem runWithTarget_inv {p q : WorkerPool} {files : List String}
    {tid : Nat} (hinv : PoolInv p)
    (hrun : p.runWithTarget files = some (q, tid)) : PoolInv q := by
  obtain ⟨hsorted, hbal, hone⟩ := hinv
  obtain ⟨target, rest, hws, -, hqw, hqmax⟩ := runWithTarget_some hrun
  rw [afterSpawnCheck_maxSize] at hqmax
  by_cases hsp : p.workers.length < p.maxSize
  · -- below capacity: a fresh worker was unshifted and received the job,
    -- and by the invariant every pre-existing worker has one active job
    have hallone : ∀ w ∈ p.workers, w.active = 1 := hone hsp
    rw [afterSpawnCheck_workers_lt hsp] at hws
    obtain ⟨htar, hrest⟩ := List.cons.injEq .. ▸ hws
    have hq1 : ∀ w ∈ q.workers, w.active = 1 := by
      intro w hw
      rw [hqw] at hw
      rcases List.mem_cons.mp (mem_sortWorkers.mp hw) with rfl | hwp
      · simp [← htar]
      · exact hallone w (hrest ▸ hwp)
    exact ⟨hqw ▸ sortWorkers_sorted _, balancedLoad_all_one hq1, fun _ => hq1⟩
  · -- at capacity: the job went to the head of the sorted array, a worker
    -- of minimal active count
    rw [afterSpawnCheck_not_lt hsp] at hws
    rw [hws] at hsorted hbal
    have hbal2 : BalancedLoad q.workers := by
      rw [hqw]
      exact balancedLoad_of_perm (sortWorkers_perm _)
        (balancedLoad_increment_head hsorted hbal rfl)
    refine ⟨hqw ▸ sortWorkers_sorted _, hbal2, ?_⟩
    intro hlt
    exfalso
    apply hsp
    have hlen : q.workers.length = p.workers.length := by
      rw [hqw, (sortWorkers_perm _).length_eq, hws]
      simp
    rw [hlen, hqmax] at hlt
    exact hlt

/-- A `done` message preserves the pool invariant: the handler rewrites
only `procActive` (every handle's `active` is untouched) and re-sorts. -/
theorem onDone_inv {p : WorkerPool} (wid : Nat) (hinv : PoolInv p) :
    PoolInv (p.onDone wid) := by
  obtain ⟨-, hbal, hone⟩ := hinv
  have hmem : ∀ w2 ∈ (p.onDone wid).workers,
      ∃ w ∈ p.workers, w2.active = w.active := by
    intro w2 hw2
    obtain ⟨w, hw, hmap⟩ := List.mem_map.mp (mem_sortWorkers.mp hw2)
    refine ⟨w, hw, ?_⟩
    rw [← hmap]
    by_cases hid : w.workerId = wid <;> simp [hid]
  have hlen : (p.onDone wid).workers.length = p.workers.length := by
    simp only [WorkerPool.onDone]
    rw [(sortWorkers_perm _).length_eq, List.length_map]
  refine ⟨sortWorkers_sorted _, ?_, ?_⟩
  · intro w hw w2 hw2
    obtain ⟨v, hv, hva⟩ := hmem w hw
    obtain ⟨v2, hv2, hv2a⟩ := hmem w2 hw2
    rw [hva, hv2a]
    exact hbal v hv v2 hv2
  · intro hlt w hw
    rw [hlen] at hlt
    obtain ⟨v, hv, hva⟩ := hmem w hw
    rw [hva]
    exact hone hlt v hv

/-- A fresh pool satisfies the invariant. -/
theorem poolInv_mk0 (n : Nat) : PoolInv (WorkerPool.mk0 n) := by
  refine ⟨List.sorted_nil, ?_, ?_⟩
  · intro w hw
    simp [WorkerPool.mk0] at hw
  · intro _ w hw
    simp [WorkerPool.mk0] at hw

/-- Shutdown (empty worker set) trivially satisfies the invariant. -/
theorem poolInv_spinDown {p : WorkerPool} : PoolInv p.spinDown := by
  refine ⟨List.sorted_nil, ?_, ?_⟩
  · intro w hw
    simp [WorkerPool.spinDown] at hw
  · intro _ w hw
    simp [WorkerPool.spinDown] at hw

/-- Every reachable pool state satisfies the invariant. -/
theorem poolReachable_inv {p : WorkerPool} (h : PoolReachable p) :
    PoolInv p := by
  induction h with
  | mk0 n => exact poolInv_mk0 n
  | run _ hrun ih => exact runWithTarget_inv ih hrun
  | done wid _ ih => exact onDone_inv wid ih
  | spinDown _ _ => exact poolInv_spinDown

/-- C7.  In every reachable pool state, immediately after a successful
dispatch the worker set is balanced: no handle's `active` exceeds any
other handle's `active` (in particular the minimum) by more than one.
Notably this holds *because of* the C3 bug — handle counts never decrease,
so below capacity every worker holds exactly one job, and at capacity
every dispatch increments a minimal element of the sorted array. -/
theorem C7_balanced_after_dispatch (p q : WorkerPool) (fs : List String)
    (t : Nat) (hreach : PoolReachable p)
    (hrun : p.runWithTarget fs = some (q, t)) :
    BalancedLoad q.workers :=
  (runWithTarget_inv (poolReachable_inv hreach) hrun).2.1

/-- Witness for `C7_balanced_after_dispatch`: the capacity-1 pool after
its first dispatch. -/
theorem C7_balanced_after_dispatch_witness :
    BalancedLoad poolOneRun.workers :=
  C7_balanced_after_dispatch (WorkerPool.mk0 1) poolOneRun ["a.js"] 1
    (PoolReachable.mk0 1) (by decide)

/-- C6, amended.  In every reachable pool state, a successful dispatch
sends the job to the worker at the head of the (spawn-adjusted) workers
array, and that worker's `active` is minimal over the whole array at pick
time; the array is re-sorted by ascending `active` after the dispatch and
again after every `done` message.  Ties among equally loaded workers,
however, are *not* broken by earlier spawn: `spawnWorker` unshifts new
workers to the front and the stable sort keeps equals in whatever
relative order the spawn/sort history has left them, so no fixed
spawn-order tie-break holds — the counterexample
`C6_tie_goes_to_later_spawn` exhibits a tie that the later-spawned worker
wins. -/
theorem C6_head_dispatch_least_loaded (p q : WorkerPool) (fs : List String)
    (t : Nat) (hreach : PoolReachable p)
    (hrun : p.runWithTarget fs = some (q, t)) :
    DispatchedToLeastLoaded p t ∧ SortedByActive q.workers ∧
      ReSortedAfterDone q := by
  obtain ⟨hsorted, -, -⟩ := poolReachable_inv hreach
  obtain ⟨target, rest, hws, htid, hqw, -⟩ := runWithTarget_some hrun
  refine ⟨⟨target, rest, hws, htid.symm, ?_⟩, hqw ▸ sortWorkers_sorted _,
    fun wid => sortWorkers_sorted _⟩
  intro w hw
  by_cases hsp : p.workers.length < p.maxSize
  · -- a freshly spawned worker with `active = 0` sits at the head
    rw [afterSpawnCheck_workers_lt hsp] at hws
    obtain ⟨htar, -⟩ := List.cons.injEq .. ▸ hws
    rw [← htar]
    exact Nat.zero_le _
  · -- at capacity the array is the invariant-sorted one, so its head is
    -- a minimum
    rw [afterSpawnCheck_not_lt hsp] at hws hw
    rw [hws] at hsorted hw
    rcases List.mem_cons.mp hw with rfl | hwr
    · exact Nat.le_refl _
    · exact List.rel_of_sorted_cons hsorted w hwr

/-- Witness for `C6_head_dispatch_least_loaded`: the capacity-1 pool and
its first dispatch. -/
theorem C6_head_dispatch_least_loaded_witness :
    DispatchedToLeastLoaded (WorkerPool.mk0 1) 1 ∧
      SortedByActive poolOneRun.workers ∧ ReSortedAfterDone poolOneRun :=
  C6_head_dispatch_least_loaded (WorkerPool.mk0 1) poolOneRun ["a.js"] 1
    (PoolReachable.mk0 1) (by decide)

/-- C6, counterexample to the claimed tie-break.  Capacity-2 pool, two
dispatches: worker 1 (spawned first) and worker 2 (spawned second) are
tied at `active = 1`, with worker 2 at the head of the array.  The third
dispatch goes to worker 2 — the *later*-spawned of the two tied workers —
whereas the claim ("ties broken by earlier spawn") demands worker 1. -/
theorem C6_tie_goes_to_later_spawn :
    (poolTieTrace.map fun p => p.workers.map fun w => (w.workerId, w.active)) =
      some [(2, 1), (1, 1)] ∧
    (poolTieTrace.bind fun p => (p.runWithTarget ["c.js"]).map Prod.snd) =
      some 2 := by
  decide
